import Mathlib

/-!
Verification development for the version-resolution engine of `amarislabs/kiara`
(`src/tasks/version.ts`).  The TypeScript source is shallowly embedded:

* the structured commit records produced by `conventional-recommended-bump`
  become Lean structures;
* the npm `semver` dependency (`semver.inc`) is embedded from its documented
  and well-known implementation: strict parsing of `MAJOR.MINOR.PATCH` with
  optional pre-release and build suffixes, and the standard increment rules;
  `semver.inc` returns `null` (here `none`) when the input does not parse;
* `neverthrow`'s `ResultAsync<T, Error>` becomes `Except JsError T`;
  `ResultAsync.fromPromise(Promise.resolve(x), f)` never takes the error
  branch because `Promise.resolve` never rejects;
* TypeScript values of type `string` that may actually hold `null` at runtime
  (results of `semver.inc(...) as string`) become `Option String`;
* external effects (the interactive prompt, the git commit source) are made
  explicit parameters of the embedded functions.
-/

/-- A commit footer annotation (`interface CommitNote` in the source). -/
structure CommitNote where
  title : String
  text : String
  deriving DecidableEq, Repr

/-- Issue/PR linkage extracted from commit text (`interface CommitReference`).
The source's last field is spelled like the English word for a leading marker;
Lean reserves that word, so the field is named `prefixText` here. -/
structure CommitReference where
  raw : String
  action : Option String
  owner : Option String
  repository : Option String
  issue : String
  prefixText : String
  deriving DecidableEq, Repr

/-- A parsed conventional commit (`type Commit = CommitBase & CommitMeta`).
The open `CommitMeta` string map is represented by the named capture fields the
program reads (`type`, `scope`); absent or null entries are `none`. -/
structure Commit where
  merge : Option String := none
  revert : Option (List (String × Option String)) := none
  header : Option String := none
  body : Option String := none
  footer : Option String := none
  notes : List CommitNote := []
  mentions : List String := []
  references : List CommitReference := []
  type : Option String := none
  scope : Option String := none
  deriving DecidableEq, Repr

/-- The recommendation produced by `analyzeBumpLevel` (the fields of
`BumperRecommendation` the program fills in). -/
structure BumperRecommendation where
  level : Nat
  reason : String
  deriving DecidableEq, Repr

/-- One entry of the manual selection list (`interface VersionSelectOption`).
`value` and `hint` hold the result of `semver.inc(...) as string`, which at
runtime may be `null`, hence `Option String`. -/
structure VersionSelectOption where
  label : String
  value : Option String
  hint : Option String
  deriving DecidableEq, Repr

/-- The slice of `KiaraContext.options` the version tasks read. -/
structure KiaraOptions where
  releaseType : Option String := none
  bumpStrategy : Option String := none
  deriving DecidableEq, Repr

/-- The slice of `KiaraContext.version` the version tasks read. -/
structure KiaraVersionInfo where
  current : String
  deriving DecidableEq, Repr

/-- The slice of the `KiaraContext` the version tasks read. -/
structure KiaraContext where
  version : KiaraVersionInfo
  options : KiaraOptions
  deriving DecidableEq, Repr

/-- A JavaScript `Error` value as observed through `neverthrow`: the code
only ever constructs and inspects the `message`. -/
structure JsError where
  message : String
  deriving DecidableEq, Repr

/-- A semantic version as parsed by the npm `semver` package: numeric core,
pre-release identifiers, build identifiers. -/
structure SemVer where
  major : Nat
  minor : Nat
  patch : Nat
  prerelease : List String
  build : List String
  deriving DecidableEq, Repr

/-- `MAX_SAFE_INTEGER`: the npm `semver` package rejects numeric components
above this bound. -/
def MAX_SAFE_INTEGER : Nat := 9007199254740991

/-- `MAX_LENGTH`: the npm `semver` package rejects version strings longer
than 256 characters. -/
def MAX_LENGTH : Nat := 256

/-- Characters allowed in pre-release and build identifiers: `[0-9A-Za-z-]`. -/
def isIdentChar (c : Char) : Bool := c.isDigit || c.isAlpha || c == '-'

/-- Decimal value of a digit string. -/
def digitsToNat (cs : List Char) : Nat :=
  cs.foldl (fun a c => a * 10 + (c.toNat - 48)) 0

/-- A numeric identifier with no leading zeros: `0|[1-9][0-9]*`. -/
def isNumericIdent (cs : List Char) : Bool :=
  (!cs.isEmpty) && cs.all (·.isDigit) && (cs == ['0'] || cs.head? != some '0')

/-- A `MAJOR`/`MINOR`/`PATCH` component: numeric, no leading zeros, within
`MAX_SAFE_INTEGER`. -/
def parseMainNumber (cs : List Char) : Option Nat :=
  if isNumericIdent cs then
    let n := digitsToNat cs
    if n ≤ MAX_SAFE_INTEGER then some n else none
  else none

/-- A pre-release identifier: `0|[1-9][0-9]*|[0-9]*[A-Za-z-][0-9A-Za-z-]*`. -/
def isPrereleaseIdent (cs : List Char) : Bool :=
  (!cs.isEmpty) && cs.all isIdentChar && (!(cs.all (·.isDigit)) || isNumericIdent cs)

/-- A build identifier: `[0-9A-Za-z-]+`. -/
def isBuildIdent (cs : List Char) : Bool :=
  (!cs.isEmpty) && cs.all isIdentChar

/-- Split a character list at every occurrence of `c` (like `String.split`). -/
def splitOnChar (c : Char) : List Char → List (List Char)
  | [] => [[]]
  | x :: xs =>
    match splitOnChar c xs with
    | [] => [[]]
    | y :: ys => if x == c then [] :: y :: ys else (x :: y) :: ys

/-- Split a character list at the first occurrence of `c`, if any. -/
def breakAtFirst (c : Char) : List Char → List Char × Option (List Char)
  | [] => ([], none)
  | x :: xs =>
    if x == c then ([], some xs)
    else
      let r := breakAtFirst c xs
      (x :: r.1, r.2)

/-- Strip leading and trailing whitespace. -/
def trimChars (cs : List Char) : List Char :=
  ((cs.dropWhile (·.isWhitespace)).reverse.dropWhile (·.isWhitespace)).reverse

/-- Parse `MAJOR.MINOR.PATCH[-prerelease]` given already-validated build
identifiers (the part before any `+`). -/
def parseCorePre (corePre : List Char) (buildIds : List String) : Option SemVer :=
  let mainPre := breakAtFirst '-' corePre
  match splitOnChar '.' mainPre.1 with
  | [majorCs, minorCs, patchCs] =>
    match parseMainNumber majorCs, parseMainNumber minorCs, parseMainNumber patchCs with
    | some major, some minor, some patch =>
      match mainPre.2 with
      | none => some ⟨major, minor, patch, [], buildIds⟩
      | some pre =>
        let preIds := splitOnChar '.' pre
        if preIds.all isPrereleaseIdent then
          some ⟨major, minor, patch, preIds.map (fun l => String.mk l), buildIds⟩
        else none
    | _, _, _ => none
  | _ => none

/-- Strict semver parsing, embedded from the npm `semver` package's `FULL`
regular expression (`^v?MAINVERSION(-PRERELEASE)?(\x2bBUILD)?$` after
trimming): `new SemVer(version)` succeeds exactly on these inputs, and
`semver.inc` catches the failure and returns `null` on all others. -/
def parseSemver (version : String) : Option SemVer :=
  if version.data.length > MAX_LENGTH then none
  else
    let cs := trimChars version.data
    let cs := match cs with
      | 'v' :: rest => rest
      | other => other
    match splitOnChar '+' cs with
    | [corePre] => parseCorePre corePre []
    | [corePre, buildPart] =>
      let buildIds := splitOnChar '.' buildPart
      if buildIds.all isBuildIdent then
        parseCorePre corePre (buildIds.map (fun l => String.mk l))
      else none
    | _ => none

/-- `SemVer.prototype.inc('major')`: reset minor/patch, clear pre-release;
the major number grows unless the version was a pre-release of `X.0.0`. -/
def SemVer.bumpMajor (v : SemVer) : SemVer :=
  { major := if v.minor ≠ 0 ∨ v.patch ≠ 0 ∨ v.prerelease = [] then v.major + 1 else v.major,
    minor := 0, patch := 0, prerelease := [], build := v.build }

/-- `SemVer.prototype.inc('minor')`: reset patch, clear pre-release; the minor
number grows unless the version was a pre-release of `X.Y.0`. -/
def SemVer.bumpMinor (v : SemVer) : SemVer :=
  { major := v.major,
    minor := if v.patch ≠ 0 ∨ v.prerelease = [] then v.minor + 1 else v.minor,
    patch := 0, prerelease := [], build := v.build }

/-- `SemVer.prototype.inc('patch')`: clear pre-release; the patch number grows
unless the version was a pre-release. -/
def SemVer.bumpPatch (v : SemVer) : SemVer :=
  { major := v.major, minor := v.minor,
    patch := if v.prerelease = [] then v.patch + 1 else v.patch,
    prerelease := [], build := v.build }

/-- Dispatch of `SemVer.prototype.inc` on the release-type string.  The
program only ever passes `"patch"`, `"minor"` or `"major"` (`RELEASE_TYPES`
and the `VERSIONS` table of `conventional-recommended-bump`); every other
argument makes the library throw, which `semver.inc` turns into `null`.
(The library's `pre*` release types are unreachable in this program and are
modelled by that same failure branch.) -/
def SemVer.incRelease (v : SemVer) : String → Option SemVer
  | "major" => some v.bumpMajor
  | "minor" => some v.bumpMinor
  | "patch" => some v.bumpPatch
  | _ => none

/-- Join identifiers with `.`. -/
def joinDot : List String → String
  | [] => ""
  | [x] => x
  | x :: xs => x ++ "." ++ joinDot xs

/-- `SemVer.prototype.format` / `.version`: `MAJOR.MINOR.PATCH` followed by
`-prerelease` when present; build metadata is never part of `.version`. -/
def formatSemVer (v : SemVer) : String :=
  let core := toString v.major ++ "." ++ toString v.minor ++ "." ++ toString v.patch
  if v.prerelease.isEmpty then core else core ++ "-" ++ joinDot v.prerelease

/-- `semver.inc(version, releaseType)`: parse, increment, format; any failure
(unparsable version, unknown release type) yields `null`. -/
def semverInc (version releaseType : String) : Option String :=
  (parseSemver version).bind (fun v => (v.incRelease releaseType).map formatSemVer)

/-- `RELEASE_TYPES` from `src/tasks/version.ts`. -/
def RELEASE_TYPES : List String := ["patch", "minor", "major"]

/-- `CHOICES.default` from `src/tasks/version.ts`: a copy of `RELEASE_TYPES`. -/
def CHOICES_default : List String := RELEASE_TYPES

/-- JavaScript template-literal rendering of a possibly-null string:
`null` prints as the four characters `null`. -/
def jsTemplateShow : Option String → String
  | some s => s
  | none => "null"

/-- `getIncrementalBumps(currentVersion)`: one `VersionSelectOption` per entry
of `CHOICES.default`, labelled `` `${increment} (${semver.inc(...)})` `` with
the raw increment result as `value` and `hint`. -/
def getIncrementalBumps (currentVersion : String) : List VersionSelectOption :=
  CHOICES_default.map (fun increment =>
    { label := increment ++ " (" ++ jsTemplateShow (semverInc currentVersion increment) ++ ")",
      value := semverInc currentVersion increment,
      hint := semverInc currentVersion increment })

/-- The `initial` argument `promptManualVersion` passes to the prompt:
`versions[0].value`.  The list always has three entries, so the `[]` branch
(JavaScript would read `undefined`) is unreachable. -/
def promptInitialValue (currentVersion : String) : Option String :=
  match getIncrementalBumps currentVersion with
  | o :: _ => o.value
  | [] => none

/-- A value a JavaScript promise can reject with, as far as the error mapper
`error instanceof Error ? error.message : "Failed to select version bump"`
can distinguish: an `Error` object (with its message) or anything else. -/
inductive RejectionValue
  | errObject (message : String)
  | nonErrorValue
  deriving DecidableEq, Repr

/-- How one run of the interactive prompt ends.  The prompt is external
(`logger.prompt` with `cancel: "reject"`): the operator selects one of the
offered option values, or cancels — which, per the `cancel: "reject"`
configuration, rejects the promise with some value — or the prompt machinery
itself fails, likewise rejecting the promise. -/
inductive PromptOutcome
  | selected (value : Option String)
  | cancelled (rejection : RejectionValue)
  | failed (rejection : RejectionValue)
  deriving DecidableEq, Repr

/-- The error mapper `promptManualVersion` installs on the prompt promise. -/
def rejectionToError : RejectionValue → JsError
  | RejectionValue.errObject m => ⟨m⟩
  | RejectionValue.nonErrorValue => ⟨"Failed to select version bump"⟩

/-- `promptManualVersion(context)`: show the candidates from
`getIncrementalBumps` and wrap the prompt promise with
`ResultAsync.fromPromise`.  A fulfilled promise (a selection) is `ok`; every
rejected promise — cancellation and machinery failure alike — is routed
through the same error mapper into the single `Error` channel. -/
def promptManualVersion (context : KiaraContext) (outcome : PromptOutcome) :
    Except JsError (Option String) :=
  match outcome with
  | PromptOutcome.selected v => Except.ok v
  | PromptOutcome.cancelled r => Except.error (rejectionToError r)
  | PromptOutcome.failed r => Except.error (rejectionToError r)

/-- `getVersionFromReleaseType(currentVersion, releaseType)`:
`ResultAsync.fromPromise(Promise.resolve(semver.inc(...)), ...)` — since
`Promise.resolve` never rejects, the error mapper is dead code and the result
is always `ok`; the payload is `semver.inc`'s string-or-null, the `as string`
cast having no runtime effect. -/
def getVersionFromReleaseType (currentVersion releaseType : String) :
    Except JsError (Option String) :=
  Except.ok (semverInc currentVersion releaseType)

/-- The `whatBump` analysis loop body of `analyzeBumpLevel`, one commit at a
time over the accumulator `(level, breakings, features)`. -/
def analyzeStep (acc : Nat × Nat × Nat) (commit : Commit) : Nat × Nat × Nat :=
  if 0 < commit.notes.length then
    (0, acc.2.1 + commit.notes.length, acc.2.2)
  else if commit.type = some "feat" then
    (if acc.1 = 2 then 1 else acc.1, acc.2.1, acc.2.2 + 1)
  else acc

/-- The accumulator of `analyzeBumpLevel` after the `for` loop, starting from
`level = 2`, `breakings = 0`, `features = 0`. -/
def analyzeCounts (commits : List Commit) : Nat × Nat × Nat :=
  commits.foldl analyzeStep (2, 0, 0)

/-- `analyzeBumpLevel(commits)` from `getConventionalBump`: the final `level`
together with the interpolated `reason` string. -/
def analyzeBumpLevel (commits : List Commit) : BumperRecommendation :=
  { level := (analyzeCounts commits).1,
    reason :=
      if (analyzeCounts commits).2.1 = 1 then
        "There is " ++ toString (analyzeCounts commits).2.1 ++ " BREAKING CHANGE and " ++
          toString (analyzeCounts commits).2.2 ++ " features"
      else
        "There are " ++ toString (analyzeCounts commits).2.1 ++ " BREAKING CHANGES and " ++
          toString (analyzeCounts commits).2.2 ++ " features" }

/-- The `VERSIONS` table of the `conventional-recommended-bump` dependency:
`Bumper.bump` sets `releaseType = VERSIONS[result.level]` on the
recommendation it returns. -/
def VERSIONS : List String := ["major", "minor", "patch"]

/-- `releaseType` attached to a recommendation by `Bumper.bump`. -/
def releaseTypeOfLevel (level : Nat) : Option String := VERSIONS[level]?

/-- `getVersion(currentVersion, recommended)`: again a
`fromPromise(Promise.resolve(...))` that can only be `ok`; the payload is
`semver.inc(currentVersion, recommended.releaseType)`.  An out-of-range level
would make `releaseType` undefined and the increment `null`. -/
def getVersion (currentVersion : String) (recommended : BumperRecommendation) :
    Except JsError (Option String) :=
  Except.ok
    (match releaseTypeOfLevel recommended.level with
     | some rt => semverInc currentVersion rt
     | none => none)

/-- `getRecommendedVersion(context)` restricted to its data flow: the commits
fetched by the external `Bumper` collaborator are passed in explicitly, the
logging taps are dropped, and the pipeline is
`analyzeBumpLevel` then `getVersion(context.version.current, …)`. -/
def getRecommendedVersion (context : KiaraContext) (commits : List Commit) :
    Except JsError (Option String) :=
  getVersion context.version.current (analyzeBumpLevel commits)

/-- The severity vocabulary of the specification: `Major(0) > Minor(1) >
Patch(2)`. -/
inductive BumpSeverity
  | Major
  | Minor
  | Patch
  deriving DecidableEq, Repr

/-- Reading of the numeric `level` in the specification's severity
vocabulary. -/
def severityOfLevel : Nat → Option BumpSeverity
  | 0 => some BumpSeverity.Major
  | 1 => some BumpSeverity.Minor
  | 2 => some BumpSeverity.Patch
  | _ => none

/-- Does some commit carry at least one note (the breaking-change signal)? -/
def hasBreakingNote (commits : List Commit) : Bool :=
  commits.any (fun c => decide (0 < c.notes.length))

/-- Does some commit with an empty notes list have type `"feat"` (the commits
the loop's `else if` branch accepts)? -/
def hasPlainFeat (commits : List Commit) : Bool :=
  commits.any (fun c => decide (c.notes = [] ∧ c.type = some "feat"))

/-- Total number of notes across all commits. -/
def breakingsOf (commits : List Commit) : Nat :=
  (commits.map (fun c => c.notes.length)).sum

/-- Number of commits with an empty notes list and type `"feat"`. -/
def featuresOf (commits : List Commit) : Nat :=
  commits.countP (fun c => decide (c.notes = [] ∧ c.type = some "feat"))

/-- A bare `MAJOR.MINOR.PATCH` rendering: the shape of every string
`semver.inc` returns (no pre-release, no build metadata). -/
def mmpString (a b c : Nat) : String :=
  toString a ++ "." ++ toString b ++ "." ++ toString c

/-- A plain fix commit, as in the specification's end-to-end example. -/
def sampleFix : Commit := { type := some "fix" }

/-- A plain feature commit, as in the specification's end-to-end example. -/
def sampleFeat : Commit := { type := some "feat" }

/-- A feature commit carrying one breaking-change note, as in the
specification's end-to-end example. -/
def sampleBreakingFeat : Commit :=
  { type := some "feat", notes := [{ title := "BREAKING CHANGE", text := "x" }] }

/-- The commit sequence of the specification's end-to-end example. -/
def endToEndCommits : List Commit := [sampleFix, sampleFeat, sampleBreakingFeat]

/-- A context with current version `1.0.0`, no explicit release type, no bump
strategy. -/
def contextOneZeroZero : KiaraContext := ⟨⟨"1.0.0"⟩, ⟨none, none⟩⟩

theorem hasBreakingNote_iff (commits : List Commit) :
    hasBreakingNote commits = true ↔ ∃ c ∈ commits, c.notes ≠ [] := by
  simp [hasBreakingNote, List.any_eq_true, List.length_pos]

theorem hasPlainFeat_iff (commits : List Commit) :
    hasPlainFeat commits = true ↔ ∃ c ∈ commits, c.notes = [] ∧ c.type = some "feat" := by
  simp [hasPlainFeat, List.any_eq_true]

theorem analyze_foldl_eq (commits : List Commit) (L b f : Nat) :
    commits.foldl analyzeStep (L, b, f) =
      (if hasBreakingNote commits then 0
       else if hasPlainFeat commits then (if L = 2 then 1 else L) else L,
       b + breakingsOf commits,
       f + featuresOf commits) := by
  induction commits generalizing L b f with
  | nil => simp [hasBreakingNote, hasPlainFeat, breakingsOf, featuresOf]
  | cons c cs ih =>
    rw [List.foldl_cons]
    by_cases h1 : 0 < c.notes.length
    · have hstep : analyzeStep (L, b, f) c = (0, b + c.notes.length, f) := by
        simp [analyzeStep, h1]
      have hpc : ¬ (c.notes = [] ∧ c.type = some "feat") := by
        rintro ⟨hnil, -⟩
        rw [hnil] at h1
        exact absurd h1 (by simp)
      have hb : hasBreakingNote (c :: cs) = true := by
        simp [hasBreakingNote, h1]
      have hbr : breakingsOf (c :: cs) = c.notes.length + breakingsOf cs := by
        simp [breakingsOf]
      have hfe : featuresOf (c :: cs) = featuresOf cs := by
        simp [featuresOf, List.countP_cons, hpc]
      rw [hstep, ih, hb, hbr, hfe]
      simp only [if_true]
      refine congrArg₂ Prod.mk ?_ (congrArg₂ Prod.mk ?_ rfl)
      · simp
      · omega
    · have hnil : c.notes = [] := List.length_eq_zero.mp (Nat.eq_zero_of_not_pos h1)
      have hbcons : hasBreakingNote (c :: cs) = hasBreakingNote cs := by
        simp [hasBreakingNote, h1]
      have hbrcons : breakingsOf (c :: cs) = breakingsOf cs := by
        simp [breakingsOf, hnil]
      by_cases h2 : c.type = some "feat"
      · have hstep : analyzeStep (L, b, f) c = (if L = 2 then 1 else L, b, f + 1) := by
          simp [analyzeStep, h1, h2]
        have hfcons : hasPlainFeat (c :: cs) = true := by
          simp [hasPlainFeat, hnil, h2]
        have hfecons : featuresOf (c :: cs) = featuresOf cs + 1 := by
          simp [featuresOf, List.countP_cons, hnil, h2]
        rw [hstep, ih, hbcons, hbrcons, hfcons, hfecons]
        simp only [if_true]
        refine congrArg₂ Prod.mk ?_ (congrArg₂ Prod.mk rfl ?_)
        · split_ifs <;> omega
        · omega
      · have hstep : analyzeStep (L, b, f) c = (L, b, f) := by
          simp [analyzeStep, h1, h2]
        have hfcons : hasPlainFeat (c :: cs) = hasPlainFeat cs := by
          simp [hasPlainFeat, List.any_cons, h2]
        have hfecons : featuresOf (c :: cs) = featuresOf cs := by
          simp [featuresOf, List.countP_cons, h2]
        rw [hstep, ih, hbcons, hbrcons, hfcons, hfecons]

theorem analyzeCounts_eq (commits : List Commit) :
    analyzeCounts commits =
      (if hasBreakingNote commits then 0 else if hasPlainFeat commits then 1 else 2,
       breakingsOf commits, featuresOf commits) := by
  rw [analyzeCounts, analyze_foldl_eq]
  simp

theorem perm_any {α : Type} (p : α → Bool) {l1 l2 : List α} (h : List.Perm l1 l2) :
    l1.any p = l2.any p := by
  cases ha : l1.any p with
  | true =>
    obtain ⟨x, hx, hpx⟩ := List.any_eq_true.mp ha
    exact (List.any_eq_true.mpr ⟨x, h.mem_iff.mp hx, hpx⟩).symm
  | false =>
    cases hb : l2.any p with
    | true =>
      obtain ⟨x, hx, hpx⟩ := List.any_eq_true.mp hb
      have hc : l1.any p = true := List.any_eq_true.mpr ⟨x, h.mem_iff.mpr hx, hpx⟩
      rw [ha] at hc
      exact absurd hc (by simp)
    | false => rfl

theorem append_head_congr (a b t u : String) (h : a = b) : a ++ t ++ u = b ++ t ++ u := by
  rw [h]

/-- C1: the claim says an invalid current version makes next-version
computation fail with `InvalidCurrentVersion`.  The code does the opposite:
`semver.inc` returns `null` for an unparsable version, `Promise.resolve`
never rejects, so both `getVersionFromReleaseType` and `getVersion` resolve
successfully carrying `null` (here `Except.ok none`) for every release type —
no error of any kind is surfaced. -/
theorem c1_invalid_version_resolves_ok_null :
    (∀ releaseType : String,
      getVersionFromReleaseType "not-a-version" releaseType = Except.ok none) ∧
    getVersion "not-a-version" (analyzeBumpLevel []) = Except.ok none := by
  constructor
  · intro rt
    have hp : parseSemver "not-a-version" = none := by decide
    simp [getVersionFromReleaseType, semverInc, hp]
  · rfl

/-- C2 counterexample: on the end-to-end commits of the claim, the reason is
not `There is 1 BREAKING CHANGE and 2 features` — the `feat` commit that
carries the breaking note is counted only toward breakings, so the feature
count is 1, not 2. -/
theorem c2_counterexample_reason :
    (analyzeBumpLevel endToEndCommits).reason ≠ "There is 1 BREAKING CHANGE and 2 features" := by
  decide

/-- C2 (amended): on commits `[fix, feat, feat+BREAKING-note]` with current
version `1.0.0`, the pipeline classifies severity `Major`, with reason exactly
`There is 1 BREAKING CHANGE and 1 features`, and resolves version `2.0.0`. -/
theorem c2_amended_pipeline :
    severityOfLevel (analyzeBumpLevel endToEndCommits).level = some BumpSeverity.Major ∧
    (analyzeBumpLevel endToEndCommits).reason = "There is 1 BREAKING CHANGE and 1 features" ∧
    getRecommendedVersion contextOneZeroZero endToEndCommits = Except.ok (some "2.0.0") := by
  refine ⟨by decide, by decide, ?_⟩
  rfl

/-- C3 counterexample: an operator cancellation (a rejection of the prompt
promise under `cancel: "reject"`) produces a value identical to that of a
prompt-machinery failure rejecting with the same `Error` — the result type
has no `SelectionCancelled` variant, so the caller cannot tell them apart. -/
theorem c3_counterexample_conflation :
    promptManualVersion contextOneZeroZero
        (PromptOutcome.cancelled (RejectionValue.errObject "Prompt cancelled.")) =
      promptManualVersion contextOneZeroZero
        (PromptOutcome.failed (RejectionValue.errObject "Prompt cancelled.")) ∧
    promptManualVersion contextOneZeroZero
        (PromptOutcome.cancelled (RejectionValue.errObject "Prompt cancelled.")) =
      Except.error ⟨"Prompt cancelled."⟩ :=
  ⟨rfl, rfl⟩

/-- C3 (amended): cancelling the manual prompt aborts the run without
producing a version, but the cancellation is surfaced as the same `Error`
kind as a computation failure (both rejections flow through the same error
mapper), not as a distinct `SelectionCancelled` outcome. -/
theorem c3_amended_cancellation_is_plain_error (context : KiaraContext) (r : RejectionValue) :
    promptManualVersion context (PromptOutcome.cancelled r) =
      Except.error (rejectionToError r) ∧
    promptManualVersion context (PromptOutcome.cancelled r) =
      promptManualVersion context (PromptOutcome.failed r) ∧
    ∀ v, promptManualVersion context (PromptOutcome.cancelled r) ≠ Except.ok v := by
  refine ⟨rfl, rfl, fun v hv => Except.noConfusion hv⟩

/-- C9: the feature count accumulated by the analysis loop is exactly the
number of commits with an empty notes list and type `"feat"`; a commit that
carries notes contributes only its note count to the breaking total and is
never counted as a feature, even when its type is `"feat"`. -/
theorem c9_feature_count (commits : List Commit) :
    (analyzeCounts commits).2.2 = featuresOf commits ∧
    (analyzeCounts commits).2.1 = breakingsOf commits := by
  rw [analyzeCounts_eq]
  exact ⟨rfl, rfl⟩

/-- C10: `getIncrementalBumps` is total on every input string and always
returns exactly three options, in the order patch, minor, major; when the
current version is invalid the options are built from the `null` increment
result, with labels of the form `{type} (null)` and null values. -/
theorem c10_bumps_total (s : String) :
    (getIncrementalBumps s).length = 3 ∧
    getIncrementalBumps s =
      [ ⟨"patch (" ++ jsTemplateShow (semverInc s "patch") ++ ")",
          semverInc s "patch", semverInc s "patch"⟩,
        ⟨"minor (" ++ jsTemplateShow (semverInc s "minor") ++ ")",
          semverInc s "minor", semverInc s "minor"⟩,
        ⟨"major (" ++ jsTemplateShow (semverInc s "major") ++ ")",
          semverInc s "major", semverInc s "major"⟩ ] ∧
    (parseSemver s = none →
      getIncrementalBumps s =
        [⟨"patch (null)", none, none⟩, ⟨"minor (null)", none, none⟩,
         ⟨"major (null)", none, none⟩]) := by
  refine ⟨?_, ?_, ?_⟩
  · simp [getIncrementalBumps, CHOICES_default, RELEASE_TYPES]
  · simp [getIncrementalBumps, CHOICES_default, RELEASE_TYPES]
  · intro hn
    have h : ∀ rt, semverInc s rt = none := fun rt => by simp [semverInc, hn]
    simp [getIncrementalBumps, CHOICES_default, RELEASE_TYPES, h, jsTemplateShow]

/-- Witness for C10 at the invalid version of the specification. -/
theorem c10_witness :
    getIncrementalBumps "not-a-version" =
      [⟨"patch (null)", none, none⟩, ⟨"minor (null)", none, none⟩,
       ⟨"major (null)", none, none⟩] :=
  (c10_bumps_total "not-a-version").2.2 (by decide)

/-- C4: classification severity — `Major` exactly when some commit carries at
least one note; in a note-free history, `Minor` exactly when some commit has
type `"feat"`; a note-free, feat-free history (in particular the empty one)
yields `Patch`. -/
theorem c4_severity_characterization (commits : List Commit) :
    (severityOfLevel (analyzeBumpLevel commits).level = some BumpSeverity.Major ↔
      ∃ c ∈ commits, c.notes ≠ []) ∧
    ((∀ c ∈ commits, c.notes = []) →
      (severityOfLevel (analyzeBumpLevel commits).level = some BumpSeverity.Minor ↔
        ∃ c ∈ commits, c.type = some "feat")) ∧
    ((∀ c ∈ commits, c.notes = []) → (∀ c ∈ commits, c.type ≠ some "feat") →
      severityOfLevel (analyzeBumpLevel commits).level = some BumpSeverity.Patch) ∧
    severityOfLevel (analyzeBumpLevel ([] : List Commit)).level = some BumpSeverity.Patch := by
  have hl : (analyzeBumpLevel commits).level =
      if hasBreakingNote commits then 0 else if hasPlainFeat commits then 1 else 2 := by
    show (analyzeCounts commits).1 = _
    rw [analyzeCounts_eq]
  refine ⟨?_, ?_, ?_, by decide⟩
  · rw [hl, ← hasBreakingNote_iff]
    cases hb : hasBreakingNote commits with
    | true => simp [severityOfLevel]
    | false =>
      cases hf : hasPlainFeat commits with
      | true => simp [severityOfLevel]
      | false => simp [severityOfLevel]
  · intro hall
    have hb : hasBreakingNote commits = false := by
      cases hcase : hasBreakingNote commits with
      | false => rfl
      | true =>
        obtain ⟨c, hc, hne⟩ := (hasBreakingNote_iff commits).mp hcase
        exact absurd (hall c hc) hne
    rw [hl, hb]
    constructor
    · intro hmin
      cases hf : hasPlainFeat commits with
      | true =>
        obtain ⟨c, hc, -, hty⟩ := (hasPlainFeat_iff commits).mp hf
        exact ⟨c, hc, hty⟩
      | false => rw [hf] at hmin; exact absurd hmin (by decide)
    · rintro ⟨c, hc, hty⟩
      have hf : hasPlainFeat commits = true :=
        (hasPlainFeat_iff commits).mpr ⟨c, hc, hall c hc, hty⟩
      rw [hf]
      rfl
  · intro hall hnofeat
    have hb : hasBreakingNote commits = false := by
      cases hcase : hasBreakingNote commits with
      | false => rfl
      | true =>
        obtain ⟨c, hc, hne⟩ := (hasBreakingNote_iff commits).mp hcase
        exact absurd (hall c hc) hne
    have hf : hasPlainFeat commits = false := by
      cases hcase : hasPlainFeat commits with
      | false => rfl
      | true =>
        obtain ⟨c, hc, -, hty⟩ := (hasPlainFeat_iff commits).mp hcase
        exact absurd hty (hnofeat c hc)
    rw [hl, hb, hf]
    rfl

/-- Witness for C4 at a concrete note-free history with one feature commit. -/
theorem c4_witness :
    severityOfLevel (analyzeBumpLevel [sampleFix, sampleFeat]).level = some BumpSeverity.Minor :=
  ((c4_severity_characterization [sampleFix, sampleFeat]).2.1 (by decide)).mpr
    ⟨sampleFeat, by decide, by decide⟩

/-- C5: the reason string is exactly `There is 1 BREAKING CHANGE and
{features} features` when the accumulated breaking count is 1, and exactly
`There are {breakings} BREAKING CHANGES and {features} features` otherwise
(including 0); the trailing noun is always `features`, and the empty history
yields `There are 0 BREAKING CHANGES and 0 features`. -/
theorem c5_reason_format (commits : List Commit) :
    (analyzeBumpLevel commits).reason =
      (if breakingsOf commits = 1 then
        "There is 1 BREAKING CHANGE and " ++ toString (featuresOf commits) ++ " features"
      else
        "There are " ++ toString (breakingsOf commits) ++ " BREAKING CHANGES and " ++
          toString (featuresOf commits) ++ " features") ∧
    (analyzeBumpLevel ([] : List Commit)).reason =
      "There are 0 BREAKING CHANGES and 0 features" := by
  constructor
  · show (if (analyzeCounts commits).2.1 = 1 then
        "There is " ++ toString (analyzeCounts commits).2.1 ++ " BREAKING CHANGE and " ++
          toString (analyzeCounts commits).2.2 ++ " features"
      else
        "There are " ++ toString (analyzeCounts commits).2.1 ++ " BREAKING CHANGES and " ++
          toString (analyzeCounts commits).2.2 ++ " features") = _
    rw [analyzeCounts_eq]
    dsimp only
    by_cases h : breakingsOf commits = 1
    · rw [if_pos h, if_pos h, h]
      exact append_head_congr _ _ _ _ (by decide)
    · rw [if_neg h, if_neg h]
  · decide

/-- C6: classification is order-insensitive — permuting the commit sequence
changes neither the severity level nor the reason string. -/
theorem c6_classify_perm_invariant (l1 l2 : List Commit) (h : List.Perm l1 l2) :
    analyzeBumpLevel l1 = analyzeBumpLevel l2 := by
  have hb : hasBreakingNote l1 = hasBreakingNote l2 := perm_any _ h
  have hf : hasPlainFeat l1 = hasPlainFeat l2 := perm_any _ h
  have hbr : breakingsOf l1 = breakingsOf l2 :=
    List.Perm.sum_eq (List.Perm.map _ h)
  have hfe : featuresOf l1 = featuresOf l2 := List.Perm.countP_eq _ h
  unfold analyzeBumpLevel
  rw [analyzeCounts_eq l1, analyzeCounts_eq l2, hb, hf, hbr, hfe]

/-- Witness for C6 at a concrete transposition. -/
theorem c6_witness :
    analyzeBumpLevel [sampleFix, sampleFeat] = analyzeBumpLevel [sampleFeat, sampleFix] :=
  c6_classify_perm_invariant _ _ (List.Perm.swap _ _ _)

/-- C7: for every syntactically valid current version, the manual candidate
list is exactly the ordered triple of its patch, minor and major increments,
each labelled `{type} ({computed-version})` with the computed version as its
value (and hint), and the prompt's pre-highlighted default is the first —
patch — increment value. -/
theorem c7_manual_candidates (s : String) (v : SemVer) (h : parseSemver s = some v) :
    getIncrementalBumps s =
      [ ⟨"patch (" ++ formatSemVer v.bumpPatch ++ ")",
          some (formatSemVer v.bumpPatch), some (formatSemVer v.bumpPatch)⟩,
        ⟨"minor (" ++ formatSemVer v.bumpMinor ++ ")",
          some (formatSemVer v.bumpMinor), some (formatSemVer v.bumpMinor)⟩,
        ⟨"major (" ++ formatSemVer v.bumpMajor ++ ")",
          some (formatSemVer v.bumpMajor), some (formatSemVer v.bumpMajor)⟩ ] ∧
    promptInitialValue s = some (formatSemVer v.bumpPatch) := by
  have hp : semverInc s "patch" = some (formatSemVer v.bumpPatch) := by
    simp [semverInc, h, SemVer.incRelease]
  have hm : semverInc s "minor" = some (formatSemVer v.bumpMinor) := by
    simp [semverInc, h, SemVer.incRelease]
  have hM : semverInc s "major" = some (formatSemVer v.bumpMajor) := by
    simp [semverInc, h, SemVer.incRelease]
  have hlist : getIncrementalBumps s =
      [ ⟨"patch (" ++ formatSemVer v.bumpPatch ++ ")",
          some (formatSemVer v.bumpPatch), some (formatSemVer v.bumpPatch)⟩,
        ⟨"minor (" ++ formatSemVer v.bumpMinor ++ ")",
          some (formatSemVer v.bumpMinor), some (formatSemVer v.bumpMinor)⟩,
        ⟨"major (" ++ formatSemVer v.bumpMajor ++ ")",
          some (formatSemVer v.bumpMajor), some (formatSemVer v.bumpMajor)⟩ ] := by
    simp [getIncrementalBumps, CHOICES_default, RELEASE_TYPES, hp, hm, hM, jsTemplateShow]
  exact ⟨hlist, by rw [promptInitialValue, hlist]⟩

/-- Witness for C7 at current version `2.0.0`. -/
theorem c7_witness :
    getIncrementalBumps "2.0.0" =
      [ ⟨"patch (2.0.1)", some "2.0.1", some "2.0.1"⟩,
        ⟨"minor (2.1.0)", some "2.1.0", some "2.1.0"⟩,
        ⟨"major (3.0.0)", some "3.0.0", some "3.0.0"⟩ ] ∧
    promptInitialValue "2.0.0" = some "2.0.1" := by
  have h := c7_manual_candidates "2.0.0" ⟨2, 0, 0, [], []⟩ (by decide)
  exact ⟨by rw [h.1]; decide, by rw [h.2]; decide⟩

/-- C8: on a valid current version with no pre-release suffix, the `major`
increment is `(MAJOR+1).0.0`, the `minor` increment is `MAJOR.(MINOR+1).0`
and the `patch` increment is `MAJOR.MINOR.(PATCH+1)`; and every successful
increment result is a bare `MAJOR.MINOR.PATCH` string — any pre-release or
build-metadata suffix of the input is absent from it. -/
theorem c8_increment_rules (s : String) (v : SemVer) (h : parseSemver s = some v) :
    (v.prerelease = [] →
      semverInc s "major" = some (mmpString (v.major + 1) 0 0) ∧
      semverInc s "minor" = some (mmpString v.major (v.minor + 1) 0) ∧
      semverInc s "patch" = some (mmpString v.major v.minor (v.patch + 1))) ∧
    (∀ releaseType result, semverInc s releaseType = some result →
      ∃ a b c, result = mmpString a b c) := by
  constructor
  · intro hpre
    refine ⟨?_, ?_, ?_⟩ <;>
      simp [semverInc, h, SemVer.incRelease, SemVer.bumpMajor, SemVer.bumpMinor,
        SemVer.bumpPatch, formatSemVer, mmpString, hpre]
  · intro rt r hr
    simp only [semverInc, h, Option.some_bind] at hr
    cases hinc : SemVer.incRelease v rt with
    | none => rw [hinc] at hr; exact absurd hr (by simp)
    | some w =>
      rw [hinc] at hr
      simp only [Option.map_some', Option.some.injEq] at hr
      have hw : w.prerelease = [] := by
        unfold SemVer.incRelease at hinc
        split at hinc
        · cases hinc; rfl
        · cases hinc; rfl
        · cases hinc; rfl
        · exact absurd hinc (by simp)
      refine ⟨w.major, w.minor, w.patch, ?_⟩
      rw [← hr]
      simp [formatSemVer, hw, mmpString]

/-- Witness for C8 at current version `1.2.3`. -/
theorem c8_witness :
    semverInc "1.2.3" "patch" = some "1.2.4" ∧
    semverInc "1.2.3" "minor" = some "1.3.0" ∧
    semverInc "1.2.3" "major" = some "2.0.0" := by
  obtain ⟨hM, hm, hp⟩ :=
    (c8_increment_rules "1.2.3" ⟨1, 2, 3, [], []⟩ (by decide)).1 rfl
  exact ⟨by rw [hp]; decide, by rw [hm]; decide, by rw [hM]; decide⟩
